import Mathlib

set_option maxRecDepth 100000

/-!
Shallow embedding of `src/envcloak/encryptor.py` (envcloak).

The repository code under `src/` is `encryptor.py`: `derive_key`,
`generate_salt`, `encrypt`, `decrypt`, `encrypt_file`, `decrypt_file`.
Its helpers live in repository modules that are not under `src/`
(`envcloak.constants`, `envcloak.exceptions`, `envcloak.utils`) and in
external libraries (`cryptography`, `base64`, `json`); those are modelled,
as documented on each definition.

Modelling conventions:
* bytes are `List Nat`;
* Python dicts parsed from JSON are insertion-ordered association lists
  `List (String × Fld)`, where a field value is either a JSON string or
  the byte string it base64-decodes to;
* `os.urandom` nonces are explicit parameters;
* a Python function that can raise returns `Except Err α`, where `Err`
  mirrors the envcloak exception taxonomy and carries the `details`
  message;
* AES-256-GCM from the `cryptography` library is idealized as a stream
  cipher together with a perfectly binding authentication tag: the tag
  determines (key, nonce, ciphertext), which is the AEAD authentication
  guarantee the spec and the library documentation assume;
* `decrypt_file` is additionally instrumented with an event trace so that
  ordering properties (which check fires before which operation, whether
  the output write happens) are stated about the trace.
-/

namespace Envcloak

deriving instance DecidableEq for Except

/-- Modelled from the spec: `envcloak.constants.SALT_SIZE` (module not under
`src/`); the spec fixes the salt size at 16 bytes. -/
def SALT_SIZE : Nat := 16

/-- Modelled from the spec: `envcloak.constants.KEY_SIZE` (module not under
`src/`); the spec fixes the derived key size at 32 bytes (AES-256). -/
def KEY_SIZE : Nat := 32

/-- Modelled from the spec: `envcloak.constants.NONCE_SIZE` (module not under
`src/`); the spec fixes the GCM nonce size at 12 bytes. -/
def NONCE_SIZE : Nat := 12

/-- Modelled from the spec: the exception taxonomy of `envcloak.exceptions`
(module not under `src/`). Each kind carries its `details` message; per the
spec every re-wrap preserves the original message as detail. -/
inductive Err where
  | invalidSalt (details : String)
  | invalidKey (details : String)
  | encryption (details : String)
  | decryption (details : String)
  | fileEncryption (details : String)
  | fileDecryption (details : String)
  | integrityCheckFailed (details : String)
deriving DecidableEq

/-- Modelled from the spec: `str(e)` on an envcloak exception yields the
message the exception carries (the spec's re-wraps "carry the original
message"). -/
def errDetails : Err → String
  | .invalidSalt d => d
  | .invalidKey d => d
  | .encryption d => d
  | .decryption d => d
  | .fileEncryption d => d
  | .fileDecryption d => d
  | .integrityCheckFailed d => d

/-- Modelled from the spec: Python `str.encode()` (UTF-8) as an injective
encoding of a string into a byte list; encoding internals are idealized as
the list of code points. -/
def strEncode (s : String) : List Nat := s.data.map Char.toNat

/-- Decidable test that a natural number is a Unicode scalar value. -/
def validCP (n : Nat) : Bool :=
  decide (n < 0xd800) || (decide (0xdfff < n) && decide (n < 0x110000))

/-- Modelled from the spec: Python `bytes.decode()` (UTF-8), the partial
inverse of `strEncode`; Python raises on invalid input, modelled as `none`. -/
def strDecode (b : List Nat) : Option String :=
  if b.all validCP then some (String.mk (b.map Char.ofNat)) else none

/-- Keystream of the idealized AES-CTR layer inside GCM: an arbitrary
deterministic function of key, nonce and position. -/
def ks (key nonce : List Nat) (i : Nat) : Nat :=
  key.foldl (fun a b => a * 256 + b) 1 + 7 * nonce.foldl (fun a b => a * 256 + b) 1 + 13 * i

/-- XOR a byte list against a keystream starting at position `i`
(self-inverse masking, as in CTR mode). -/
def mask (f : Nat → Nat) : List Nat → Nat → List Nat
  | [], _ => []
  | b :: bs, i => (b ^^^ f i) :: mask f bs (i + 1)

/-- Authentication tag of the idealized GCM: perfectly binding to
(key, nonce, ciphertext). Real GCM guarantees this binding
computationally; the idealization makes it exact. -/
def tagOf (key nonce ct : List Nat) : List Nat :=
  key.length :: nonce.length :: (key ++ (nonce ++ ct))

/-- Idealized AES-256-GCM encryption (the `cryptography` library's
`encryptor.update/finalize` plus `encryptor.tag`): returns
(ciphertext, tag). -/
def encGCM (key nonce p : List Nat) : List Nat × List Nat :=
  let ct := mask (ks key nonce) p 0
  (ct, tagOf key nonce ct)

/-- Idealized AES-256-GCM decryption (the `cryptography` library's
`decryptor.update/finalize` with the stored tag): `none` is the
`InvalidTag` authentication failure. -/
def decGCM (key nonce tag ct : List Nat) : Option (List Nat) :=
  if tag = tagOf key nonce ct then some (mask (ks key nonce) ct 0) else none

/-- AES accepts key sizes of 128, 192 or 256 bits; `algorithms.AES(key)`
raises for any other length. -/
def keyOk (key : List Nat) : Bool :=
  decide (key.length = 16) || decide (key.length = 24) || decide (key.length = 32)

/-- Modelled from the spec: PBKDF2-HMAC-SHA256 from the `cryptography`
library, idealized as a deterministic function of (password, salt,
iterations) producing `length` bytes. -/
def pbkdf2HmacSha256 (password salt : List Nat) (iterations length : Nat) : List Nat :=
  (List.range length).map (fun i =>
    (password.foldl (fun a b => a * 257 + b) 3 +
      salt.foldl (fun a b => a * 257 + b) 5 + iterations * 11 + i) % 256)

/-- The hexadecimal digit character for a value below 16. -/
def hexDigit (d : Nat) : Char :=
  Char.ofNat (if d < 10 then 48 + d else 87 + d)

/-- Modelled from the spec: `envcloak.utils.compute_sha256` (module not
under `src/`); the spec specifies a deterministic text-to-hex-string hash
used identically on both sides of every comparison, idealized as a
deterministic rolling hash rendered as a fixed-length hex string. -/
def compute_sha256 (s : String) : String :=
  String.mk ((List.range 16).reverse.map (fun i =>
    hexDigit ((s.data.foldl (fun a c => a * 131 + c.toNat + 7) 5)
      % 18446744073709551616 / 16 ^ i % 16)))

/-- A field value of the envelope dict: a JSON string, or (for the
`ciphertext`/`nonce`/`tag` fields) the byte string it base64-decodes to. -/
inductive Fld where
  | str (v : String)
  | bytes (v : List Nat)
deriving DecidableEq

/-- Python `dict.get(k)` on an insertion-ordered dict. -/
def dget? (d : List (String × Fld)) (k : String) : Option Fld :=
  (d.find? (fun kv => decide (kv.1 = k))).map (fun kv => kv.2)

/-- Python `k in dict`. -/
def dcontains (d : List (String × Fld)) (k : String) : Bool :=
  d.any (fun kv => decide (kv.1 = k))

/-- Python `dict.copy()` followed by `pop(k)`: the dict without key `k`,
other entries in unchanged order. -/
def dpop (d : List (String × Fld)) (k : String) : List (String × Fld) :=
  d.filter (fun kv => decide (kv.1 ≠ k))

/-- Python truthiness of a field value: empty strings are falsy. -/
def ftruthy : Fld → Bool
  | .str s => if s = "" then false else true
  | .bytes b => if b = [] then false else true

/-- Python truthiness of `dict.get(k)`: `None` (absent) and falsy values
both fail the `if`. -/
def otruthy : Option Fld → Bool
  | none => false
  | some f => ftruthy f

/-- Modelled from the spec: `base64.b64encode(...).decode()` as an
injective rendering of a byte string as text (only determinism is used). -/
def b64 (b : List Nat) : String :=
  String.intercalate "." (b.map (fun n => Nat.repr n))

/-- The JSON text of one field value. -/
def fldStr : Fld → String
  | .str s => s
  | .bytes b => b64 b

/-- Modelled from the spec: `json.dumps(d, ensure_ascii=False)` on a dict
of string fields, with Python's default separators; deterministic in the
ordered field list, which is the canonical-serialization property the spec
requires. -/
def dumps (d : List (String × Fld)) : String :=
  "\x7b" ++ String.intercalate ", "
    (d.map (fun kv => "\"" ++ kv.1 ++ "\": \"" ++ fldStr kv.2 ++ "\"")) ++ "\x7d"

/-- `derive_key` from `src/envcloak/encryptor.py` lines 23-44: salt length
check, then PBKDF2-HMAC-SHA256 with 100000 iterations producing
`KEY_SIZE` bytes. -/
def derive_key (password : String) (salt : List Nat) : Except Err (List Nat) :=
  if salt.length ≠ SALT_SIZE then
    Except.error (Err.invalidSalt
      ("Expected salt of size " ++ Nat.repr SALT_SIZE ++ ", got " ++
        Nat.repr salt.length ++ " bytes."))
  else
    Except.ok (pbkdf2HmacSha256 (strEncode password) salt 100000 KEY_SIZE)

/-- `encrypt` from `src/envcloak/encryptor.py` lines 58-80: AES-256-GCM
with a fresh nonce (here an explicit parameter standing for
`os.urandom(NONCE_SIZE)`), returning the dict of base64 fields; any
failure inside (e.g. an invalid AES key size) is wrapped as
`EncryptionException`. -/
def encrypt (data : String) (key : List Nat) (nonce : List Nat) :
    Except Err (List (String × Fld)) :=
  if keyOk key then
    Except.ok [("ciphertext", Fld.bytes (encGCM key nonce (strEncode data)).1),
      ("nonce", Fld.bytes nonce),
      ("tag", Fld.bytes (encGCM key nonce (strEncode data)).2)]
  else Except.error (Err.encryption "Invalid key size (must be 128, 192, or 256 bits).")

/-- Details message of the plaintext-hash failure raised inside `decrypt`
(`src/envcloak/encryptor.py` line 109). -/
def integrityMsg : String :=
  "Integrity check failed! The file may have been tampered with or corrupted."

/-- `decrypt` from `src/envcloak/encryptor.py` lines 83-114: base64-decode
the three fields, AEAD-decrypt, then (when `validate_integrity` and a
`sha` field is present) compare the plaintext hash. Everything runs inside
one `try`: any failure — missing field, AES key-size error, `InvalidTag`,
decode error, and also the `IntegrityCheckFailedException` raised by the
hash comparison — is re-raised as `DecryptionException` carrying the
original message. -/
def decrypt (ed : List (String × Fld)) (key : List Nat) (vi : Bool) :
    Except Err String :=
  match dget? ed "nonce", dget? ed "ciphertext", dget? ed "tag" with
  | some (Fld.bytes nonce), some (Fld.bytes ct), some (Fld.bytes tg) =>
    if keyOk key then
      match decGCM key nonce tg ct with
      | none => Except.error (Err.decryption "InvalidTag")
      | some pt =>
        match strDecode pt with
        | none => Except.error (Err.decryption "UnicodeDecodeError")
        | some ptxt =>
          if vi then
            if dcontains ed "sha" then
              if dget? ed "sha" = some (Fld.str (compute_sha256 ptxt)) then
                Except.ok ptxt
              else
                Except.error (Err.decryption integrityMsg)
            else Except.ok ptxt
          else Except.ok ptxt
    else Except.error (Err.decryption "Invalid key size (must be 128, 192, or 256 bits).")
  | _, _, _ => Except.error (Err.decryption "KeyError")

/-- `encrypt_file` from `src/envcloak/encryptor.py` lines 117-145, at the
level of the envelope it writes: encrypt the file text, append the
plaintext hash field `sha`, then append `file_sha`, the hash of the
serialization of the structure built so far (which therefore covers `sha`
but not itself). The returned dict is what `json.dump` persists. -/
def encryptFile (data : String) (key : List Nat) (nonce : List Nat) :
    Except Err (List (String × Fld)) :=
  match encrypt data key nonce with
  | Except.error e => Except.error (Err.fileEncryption (errDetails e))
  | Except.ok ed =>
    let ed1 := ed ++ [("sha", Fld.str (compute_sha256 data))]
    Except.ok (ed1 ++ [("file_sha", Fld.str (compute_sha256 (dumps ed1)))])

/-- Observable events of one `decrypt_file` run, in order: the
envelope-level hash comparison, the skip warnings, the call into
`decrypt` (the AEAD attempt), the plaintext-level hash comparison, and
the write of the output file. -/
inductive Ev where
  | checkFileSha
  | warnFileSha
  | aead
  | checkSha
  | warnSha
  | write
deriving DecidableEq

/-- Details message of the envelope-level hash failure
(`src/envcloak/encryptor.py` line 178). -/
def fileIntegrityMsg : String :=
  "Encrypted file integrity check failed! The file may have been tampered with or corrupted."

/-- Details message of the plaintext-level hash failure in `decrypt_file`
(`src/envcloak/encryptor.py` line 201). -/
def plainIntegrityMsg : String :=
  "Decrypted plaintext integrity check failed! The file may have been tampered with or corrupted."

/-- `decrypt_file` from line 188 on: call `decrypt`, then (when
`validate_integrity`) the plaintext-hash block, then write the output.
Failures are wrapped as `FileDecryptionException`; `tr` is the trace
accumulated by the earlier file-hash block. -/
def decryptFileRest (ed : List (String × Fld)) (key : List Nat) (vi : Bool)
    (tr : List Ev) : Except Err String × List Ev :=
  match decrypt ed key vi with
  | Except.error e => (Except.error (Err.fileDecryption (errDetails e)), tr ++ [Ev.aead])
  | Except.ok pt =>
    if vi then
      if dcontains ed "sha" then
        if dget? ed "sha" = some (Fld.str (compute_sha256 pt)) then
          (Except.ok pt, tr ++ [Ev.aead, Ev.checkSha, Ev.write])
        else
          (Except.error (Err.fileDecryption plainIntegrityMsg), tr ++ [Ev.aead, Ev.checkSha])
      else (Except.ok pt, tr ++ [Ev.aead, Ev.warnSha, Ev.write])
    else (Except.ok pt, tr ++ [Ev.aead, Ev.write])

/-- `decrypt_file` from `src/envcloak/encryptor.py` lines 148-215, on the
parsed envelope: when `validate_integrity`, fetch `file_sha` with `.get`
and test it for truthiness; if truthy, recompute the hash over the dict
with `file_sha` removed and fail on mismatch, otherwise warn that the
check is skipped; then continue with `decryptFileRest`. Every failure is
wrapped as `FileDecryptionException` carrying the original message, and
the output file is written only at the very end (the `Ev.write` event). -/
def decryptFile (ed : List (String × Fld)) (key : List Nat) (vi : Bool) :
    Except Err String × List Ev :=
  if vi then
    if otruthy (dget? ed "file_sha") then
      if dget? ed "file_sha" =
          some (Fld.str (compute_sha256 (dumps (dpop ed "file_sha")))) then
        decryptFileRest ed key vi [Ev.checkFileSha]
      else
        (Except.error (Err.fileDecryption fileIntegrityMsg), [Ev.checkFileSha])
    else decryptFileRest ed key vi [Ev.warnFileSha]
  else decryptFileRest ed key vi []

/-- Replace the value stored under key `k` (tampering with one field of a
persisted envelope while leaving the rest intact). -/
def replaceField (d : List (String × Fld)) (k : String) (v : Fld) : List (String × Fld) :=
  d.map (fun kv => if kv.1 = k then (kv.1, v) else kv)

/-! ### Evaluation lemmas for the dict model -/

theorem dget?_nil (k : String) : dget? [] k = none := rfl

theorem dget?_cons (k' : String) (v : Fld) (d : List (String × Fld)) (k : String) :
    dget? ((k', v) :: d) k = if k' = k then some v else dget? d k := by
  by_cases h : k' = k <;> simp [dget?, List.find?_cons, h]

theorem dcontains_nil (k : String) : dcontains [] k = false := rfl

theorem dcontains_cons (k' : String) (v : Fld) (d : List (String × Fld)) (k : String) :
    dcontains ((k', v) :: d) k = (decide (k' = k) || dcontains d k) := by
  simp [dcontains]

theorem dpop_nil (k : String) : dpop [] k = [] := rfl

theorem dpop_cons (k' : String) (v : Fld) (d : List (String × Fld)) (k : String) :
    dpop ((k', v) :: d) k = if k' = k then dpop d k else (k', v) :: dpop d k := by
  by_cases h : k' = k <;> simp [dpop, List.filter_cons, h]

theorem replaceField_nil (k : String) (v : Fld) : replaceField [] k v = [] := rfl

theorem replaceField_cons (k' : String) (v' : Fld) (d : List (String × Fld))
    (k : String) (v : Fld) :
    replaceField ((k', v') :: d) k v =
      (if k' = k then (k', v) else (k', v')) :: replaceField d k v := by
  by_cases h : k' = k <;> simp [replaceField, h]

/-! ### Properties of the idealized primitives -/

theorem mask_mask (f : Nat → Nat) : ∀ (l : List Nat) (i : Nat), mask f (mask f l i) i = l
  | [], _ => rfl
  | b :: bs, i => by
    simp [mask, mask_mask f bs (i + 1), Nat.xor_assoc, Nat.xor_self, Nat.xor_zero]

theorem decGCM_encGCM (key nonce p : List Nat) :
    decGCM key nonce (encGCM key nonce p).2 (encGCM key nonce p).1 = some p := by
  simp [encGCM, decGCM, mask_mask]

theorem tagOf_inj {key n1 c1 n2 c2 : List Nat} (h : tagOf key n1 c1 = tagOf key n2 c2) :
    n1 = n2 ∧ c1 = c2 := by
  simp only [tagOf, List.cons.injEq] at h
  obtain ⟨-, hl, happ⟩ := h
  have h2 := List.append_cancel_left happ
  exact List.append_inj h2 (by omega)

theorem validCP_char (c : Char) : validCP c.toNat = true := by
  have hv := c.valid
  have hc : c.toNat = c.val.toNat := rfl
  simp only [validCP, Bool.or_eq_true, Bool.and_eq_true, decide_eq_true_eq, hc]
  rcases hv with h | ⟨h1, h2⟩
  · exact Or.inl h
  · exact Or.inr ⟨h1, h2⟩

theorem strDecode_strEncode (s : String) : strDecode (strEncode s) = some s := by
  have hall : (strEncode s).all validCP = true := by
    simp only [strEncode, List.all_eq_true]
    intro n hn
    obtain ⟨c, -, rfl⟩ := List.mem_map.mp hn
    exact validCP_char c
  simp only [strDecode, hall, if_true]
  simp only [strEncode, List.map_map]
  have hmap : (s.data.map (Char.ofNat ∘ Char.toNat)) = s.data := by
    simp [Function.comp_def, Char.ofNat_toNat]
  rw [hmap]

theorem keyOk_of_len32 {key : List Nat} (hk : key.length = 32) : keyOk key = true := by
  simp [keyOk, hk]

theorem compute_sha256_ne_empty (s : String) : compute_sha256 s ≠ "" := by
  simp [compute_sha256, String.ext_iff]

/-! ### Concrete inputs used by the witness theorems -/

/-- A concrete 32-byte key. -/
def wKey : List Nat := List.replicate 32 1

/-- A concrete 12-byte nonce. -/
def wNonce : List Nat := List.replicate 12 2

/-- The envelope `encrypt` produces for plaintext `"A"` under `wKey` and
`wNonce`. -/
def wEnv3 : List (String × Fld) :=
  [("ciphertext", Fld.bytes (encGCM wKey wNonce (strEncode "A")).1),
   ("nonce", Fld.bytes wNonce),
   ("tag", Fld.bytes (encGCM wKey wNonce (strEncode "A")).2)]

/-- `wEnv3` with the plaintext hash field attached. -/
def wEnv4 : List (String × Fld) := wEnv3 ++ [("sha", Fld.str (compute_sha256 "A"))]

/-- The envelope `encrypt_file` persists for plaintext `"A"` under `wKey`
and `wNonce`. -/
def wEnv5 : List (String × Fld) :=
  wEnv4 ++ [("file_sha", Fld.str (compute_sha256 (dumps wEnv4)))]

/-- `wEnv3` with a `sha` field that does not match the plaintext hash. -/
def wEnvBadSha : List (String × Fld) := wEnv3 ++ [("sha", Fld.str "00")]

/-- `wEnv4` with a truthy `file_sha` field that does not match the
envelope hash. -/
def wEnvBadFile : List (String × Fld) := wEnv4 ++ [("file_sha", Fld.str "00")]

/-! ### Claim theorems -/

/-- C1: round-trip of the codec — for every text plaintext and every
32-byte key (and every nonce `encrypt` draws), decrypting the envelope
produced by `encrypt` with the same key returns exactly the plaintext. -/
theorem spec_C1 (data : String) (key nonce : List Nat) (hk : key.length = 32) :
    ∃ ed, encrypt data key nonce = Except.ok ed ∧ decrypt ed key true = Except.ok data := by
  have hko := keyOk_of_len32 hk
  refine ⟨[("ciphertext", Fld.bytes (encGCM key nonce (strEncode data)).1),
    ("nonce", Fld.bytes nonce),
    ("tag", Fld.bytes (encGCM key nonce (strEncode data)).2)], ?_, ?_⟩
  · simp [encrypt, hko]
  · simp [decrypt, dget?_cons, dget?_nil, hko, decGCM_encGCM, strDecode_strEncode,
      dcontains_cons, dcontains_nil]

/-- C1 witness: the round trip at plaintext `"A"`, key `wKey`, nonce
`wNonce`. -/
theorem spec_C1_witness :
    wKey.length = 32 ∧
    ∃ ed, encrypt "A" wKey wNonce = Except.ok ed ∧ decrypt ed wKey true = Except.ok "A" :=
  ⟨by decide, spec_C1 "A" wKey wNonce (by decide)⟩

/-- C2: for every password and 16-byte salt, `derive_key` returns exactly
the PBKDF2-HMAC-SHA256 output at 100000 iterations on (password, salt),
which is 32 bytes long; determinism is immediate since the result is that
function of the inputs. -/
theorem spec_C2 (pw : String) (salt : List Nat) (hs : salt.length = 16) :
    derive_key pw salt = Except.ok (pbkdf2HmacSha256 (strEncode pw) salt 100000 KEY_SIZE) ∧
    (pbkdf2HmacSha256 (strEncode pw) salt 100000 KEY_SIZE).length = 32 := by
  constructor
  · simp [derive_key, SALT_SIZE, hs]
  · simp [pbkdf2HmacSha256, KEY_SIZE]

/-- C2 witness: key derivation at password `"p"` and a concrete 16-byte
salt. -/
theorem spec_C2_witness :
    (List.replicate 16 3 : List Nat).length = 16 ∧
    (derive_key "p" (List.replicate 16 3) =
        Except.ok (pbkdf2HmacSha256 (strEncode "p") (List.replicate 16 3) 100000 KEY_SIZE) ∧
      (pbkdf2HmacSha256 (strEncode "p") (List.replicate 16 3) 100000 KEY_SIZE).length = 32) :=
  ⟨by decide, spec_C2 "p" (List.replicate 16 3) (by decide)⟩

/-- C3: every envelope produced by `encrypt_file` stores in `file_sha`
exactly the hash of the serialization of the envelope with `file_sha`
removed, and `decrypt_file` on the untampered envelope passes that check
(the trace shows the check ran) and succeeds end to end. -/
theorem spec_C3 (data : String) (key nonce : List Nat) (hk : key.length = 32)
    (ed : List (String × Fld)) (hEF : encryptFile data key nonce = Except.ok ed) :
    dget? ed "file_sha" = some (Fld.str (compute_sha256 (dumps (dpop ed "file_sha")))) ∧
    decryptFile ed key true = (Except.ok data, [Ev.checkFileSha, Ev.aead, Ev.checkSha, Ev.write]) := by
  have hko := keyOk_of_len32 hk
  simp only [encryptFile, encrypt, hko, if_true, Except.ok.injEq] at hEF
  subst hEF
  constructor
  · simp [dget?_cons, dpop_cons, dpop_nil]
  · simp [decryptFile, decryptFileRest, decrypt, dget?_cons, dget?_nil, dcontains_cons,
      dcontains_nil, dpop_cons, dpop_nil, otruthy, ftruthy, compute_sha256_ne_empty, hko,
      decGCM_encGCM, strDecode_strEncode]

/-- C3 witness: the stored and recomputed `file_sha` agree on the concrete
envelope `wEnv5`, and `decrypt_file` succeeds on it. -/
theorem spec_C3_witness :
    (wKey.length = 32 ∧ encryptFile "A" wKey wNonce = Except.ok wEnv5) ∧
    (dget? wEnv5 "file_sha" =
        some (Fld.str (compute_sha256 (dumps (dpop wEnv5 "file_sha")))) ∧
      decryptFile wEnv5 wKey true =
        (Except.ok "A", [Ev.checkFileSha, Ev.aead, Ev.checkSha, Ev.write])) :=
  ⟨⟨by decide, by decide⟩, spec_C3 "A" wKey wNonce (by decide) wEnv5 (by decide)⟩

/-- C4: with `validate_integrity` true and a (nonempty) `file_sha` field
that does not match the recomputed envelope hash, `decrypt_file` fails
with the wrapped envelope-integrity error and its trace contains no AEAD
decryption event: `decrypt` is never invoked. -/
theorem spec_C4 (ed : List (String × Fld)) (key : List Nat) (f : Fld)
    (hget : dget? ed "file_sha" = some f) (ht : ftruthy f = true)
    (hm : f ≠ Fld.str (compute_sha256 (dumps (dpop ed "file_sha")))) :
    decryptFile ed key true =
      (Except.error (Err.fileDecryption fileIntegrityMsg), [Ev.checkFileSha]) ∧
    Ev.aead ∉ (decryptFile ed key true).2 := by
  have h1 : decryptFile ed key true =
      (Except.error (Err.fileDecryption fileIntegrityMsg), [Ev.checkFileSha]) := by
    simp only [decryptFile, hget, otruthy, ht, if_true]
    rw [if_neg]
    simpa using hm
  exact ⟨h1, by rw [h1]; decide⟩

/-- C4 witness: the early failure at the concrete envelope `wEnvBadFile`
whose `file_sha` is `"00"`. -/
theorem spec_C4_witness :
    (dget? wEnvBadFile "file_sha" = some (Fld.str "00") ∧ ftruthy (Fld.str "00") = true ∧
      Fld.str "00" ≠ Fld.str (compute_sha256 (dumps (dpop wEnvBadFile "file_sha")))) ∧
    (decryptFile wEnvBadFile wKey true =
        (Except.error (Err.fileDecryption fileIntegrityMsg), [Ev.checkFileSha]) ∧
      Ev.aead ∉ (decryptFile wEnvBadFile wKey true).2) :=
  ⟨⟨by decide, by decide, by decide⟩,
    spec_C4 wEnvBadFile wKey (Fld.str "00") (by decide) (by decide) (by decide)⟩

/-- C5 counterexample: on a concrete envelope whose `sha` field does not
match the plaintext hash, the caller of `decrypt` observes a
`DecryptionException` carrying the integrity message — not an
`IntegrityCheckFailedException`, contrary to the claim. -/
theorem spec_C5_counterexample :
    decrypt wEnvBadSha wKey true = Except.error (Err.decryption integrityMsg) ∧
    ¬ ∃ d, decrypt wEnvBadSha wKey true = Except.error (Err.integrityCheckFailed d) := by
  have h : decrypt wEnvBadSha wKey true = Except.error (Err.decryption integrityMsg) := by
    decide
  refine ⟨h, ?_⟩
  rintro ⟨d, hd⟩
  rw [h] at hd
  exact Err.noConfusion (Except.error.inj hd)

/-- C5 amended: when `validate_integrity` is true and the `sha` field does
not match the hash of the AEAD-decrypted plaintext, `decrypt` raises
`IntegrityCheckFailed` internally after successful AEAD decryption, but
the codec's catch-all re-wraps it, so the caller observes a `Decryption`
error carrying the integrity message (the same envelope decrypts fine
with `validate_integrity` false, showing the AEAD stage succeeded). -/
theorem spec_C5 (data : String) (key nonce : List Nat) (hk : key.length = 32)
    (s : String) (hs : s ≠ compute_sha256 data)
    (ed : List (String × Fld)) (hE : encrypt data key nonce = Except.ok ed) :
    decrypt (ed ++ [("sha", Fld.str s)]) key true = Except.error (Err.decryption integrityMsg) ∧
    decrypt (ed ++ [("sha", Fld.str s)]) key false = Except.ok data := by
  have hko := keyOk_of_len32 hk
  simp only [encrypt, hko, if_true, Except.ok.injEq] at hE
  subst hE
  constructor <;>
    simp [decrypt, dget?_cons, dget?_nil, dcontains_cons, dcontains_nil, hko,
      decGCM_encGCM, strDecode_strEncode, hs]

/-- C5 witness: the wrapped integrity failure at plaintext `"A"` with the
mismatching stored hash `"00"`. -/
theorem spec_C5_witness :
    (wKey.length = 32 ∧ "00" ≠ compute_sha256 "A" ∧
      encrypt "A" wKey wNonce = Except.ok wEnv3) ∧
    (decrypt (wEnv3 ++ [("sha", Fld.str "00")]) wKey true =
        Except.error (Err.decryption integrityMsg) ∧
      decrypt (wEnv3 ++ [("sha", Fld.str "00")]) wKey false = Except.ok "A") :=
  ⟨⟨by decide, by decide, by decide⟩,
    spec_C5 "A" wKey wNonce (by decide) "00" (by decide) wEnv3 (by decide)⟩

/-- C6: an envelope lacking both `sha` and `file_sha` (exactly what the
codec's `encrypt` emits) decrypts successfully through `decrypt_file` with
`validate_integrity` true, the trace showing one skip warning for each
missing hash field. -/
theorem spec_C6 (data : String) (key nonce : List Nat) (hk : key.length = 32)
    (ed : List (String × Fld)) (hE : encrypt data key nonce = Except.ok ed) :
    decryptFile ed key true =
      (Except.ok data, [Ev.warnFileSha, Ev.aead, Ev.warnSha, Ev.write]) := by
  have hko := keyOk_of_len32 hk
  simp only [encrypt, hko, if_true, Except.ok.injEq] at hE
  subst hE
  simp [decryptFile, decryptFileRest, decrypt, dget?_cons, dget?_nil, dcontains_cons,
    dcontains_nil, otruthy, ftruthy, hko, decGCM_encGCM, strDecode_strEncode]

/-- C6 witness: backward-compatible decryption of the hash-less concrete
envelope `wEnv3`. -/
theorem spec_C6_witness :
    (wKey.length = 32 ∧ encrypt "A" wKey wNonce = Except.ok wEnv3) ∧
    decryptFile wEnv3 wKey true =
      (Except.ok "A", [Ev.warnFileSha, Ev.aead, Ev.warnSha, Ev.write]) :=
  ⟨⟨by decide, by decide⟩, spec_C6 "A" wKey wNonce (by decide) wEnv3 (by decide)⟩

/-- Core of C7: on an envelope whose `ciphertext` field differs from the
one the stored tag binds, `decrypt_file` fails with a wrapped
`FileDecryption` error — either at the envelope-hash comparison or, if
that hash happens to collide, at AEAD authentication — and never reaches
the output write. -/
theorem c7_core (key nonce ct0 ct' : List Nat) (s1 s2 : String) (hs2 : s2 ≠ "")
    (hko : keyOk key = true) (hne : ct' ≠ ct0) :
    (∃ d, (decryptFile [("ciphertext", Fld.bytes ct'), ("nonce", Fld.bytes nonce),
        ("tag", Fld.bytes (tagOf key nonce ct0)), ("sha", Fld.str s1), ("file_sha", Fld.str s2)]
        key true).1 = Except.error (Err.fileDecryption d)) ∧
    Ev.write ∉ (decryptFile [("ciphertext", Fld.bytes ct'), ("nonce", Fld.bytes nonce),
        ("tag", Fld.bytes (tagOf key nonce ct0)), ("sha", Fld.str s1), ("file_sha", Fld.str s2)]
        key true).2 := by
  have hotr : otruthy (dget? [("ciphertext", Fld.bytes ct'), ("nonce", Fld.bytes nonce),
      ("tag", Fld.bytes (tagOf key nonce ct0)), ("sha", Fld.str s1), ("file_sha", Fld.str s2)]
      "file_sha") = true := by
    simp [dget?_cons, otruthy, ftruthy, hs2]
  have htagne : tagOf key nonce ct0 ≠ tagOf key nonce ct' := fun h => hne ((tagOf_inj h).2).symm
  by_cases hcond : dget? [("ciphertext", Fld.bytes ct'), ("nonce", Fld.bytes nonce),
      ("tag", Fld.bytes (tagOf key nonce ct0)), ("sha", Fld.str s1), ("file_sha", Fld.str s2)]
      "file_sha" = some (Fld.str (compute_sha256 (dumps (dpop
        [("ciphertext", Fld.bytes ct'), ("nonce", Fld.bytes nonce),
        ("tag", Fld.bytes (tagOf key nonce ct0)), ("sha", Fld.str s1), ("file_sha", Fld.str s2)]
        "file_sha"))))
  · simp only [decryptFile, hotr, if_true, if_pos hcond]
    simp [decryptFileRest, decrypt, dget?_cons, dget?_nil, hko, decGCM, htagne, errDetails]
  · simp only [decryptFile, hotr, if_true, if_neg hcond]
    exact ⟨⟨fileIntegrityMsg, rfl⟩, by decide⟩

/-- C7: corrupt the stored `ciphertext` field of an `encrypt_file`
envelope in any way, and `decrypt_file` fails with a `FileDecryption`
error wrapping the underlying integrity or authentication failure; the
trace contains no write event, so nothing is written to the output
path. -/
theorem spec_C7 (data : String) (key nonce : List Nat) (hk : key.length = 32)
    (ct' : List Nat) (hne : ct' ≠ (encGCM key nonce (strEncode data)).1)
    (ed : List (String × Fld)) (hEF : encryptFile data key nonce = Except.ok ed) :
    (∃ d, (decryptFile (replaceField ed "ciphertext" (Fld.bytes ct')) key true).1
        = Except.error (Err.fileDecryption d)) ∧
    Ev.write ∉ (decryptFile (replaceField ed "ciphertext" (Fld.bytes ct')) key true).2 := by
  have hko := keyOk_of_len32 hk
  simp only [encryptFile, encrypt, hko, if_true, Except.ok.injEq] at hEF
  subst hEF
  have hrep : replaceField
      ([("ciphertext", Fld.bytes (encGCM key nonce (strEncode data)).1),
        ("nonce", Fld.bytes nonce),
        ("tag", Fld.bytes (encGCM key nonce (strEncode data)).2)] ++
        [("sha", Fld.str (compute_sha256 data))] ++
        [("file_sha", Fld.str (compute_sha256 (dumps
          ([("ciphertext", Fld.bytes (encGCM key nonce (strEncode data)).1),
            ("nonce", Fld.bytes nonce),
            ("tag", Fld.bytes (encGCM key nonce (strEncode data)).2)] ++
            [("sha", Fld.str (compute_sha256 data))]))))]) "ciphertext" (Fld.bytes ct') =
      [("ciphertext", Fld.bytes ct'),
        ("nonce", Fld.bytes nonce),
        ("tag", Fld.bytes (encGCM key nonce (strEncode data)).2),
        ("sha", Fld.str (compute_sha256 data)),
        ("file_sha", Fld.str (compute_sha256 (dumps
          ([("ciphertext", Fld.bytes (encGCM key nonce (strEncode data)).1),
            ("nonce", Fld.bytes nonce),
            ("tag", Fld.bytes (encGCM key nonce (strEncode data)).2)] ++
            [("sha", Fld.str (compute_sha256 data))]))))] := by
    simp [replaceField_cons, replaceField_nil]
  rw [hrep]
  exact c7_core key nonce (encGCM key nonce (strEncode data)).1 ct' (compute_sha256 data)
    (compute_sha256 (dumps
      ([("ciphertext", Fld.bytes (encGCM key nonce (strEncode data)).1),
        ("nonce", Fld.bytes nonce),
        ("tag", Fld.bytes (encGCM key nonce (strEncode data)).2)] ++
        [("sha", Fld.str (compute_sha256 data))])))
    (compute_sha256_ne_empty _) hko hne

/-- C7 witness: corrupting the ciphertext of the concrete envelope
`wEnv5` to the empty byte string. -/
theorem spec_C7_witness :
    (wKey.length = 32 ∧ ([] : List Nat) ≠ (encGCM wKey wNonce (strEncode "A")).1 ∧
      encryptFile "A" wKey wNonce = Except.ok wEnv5) ∧
    ((∃ d, (decryptFile (replaceField wEnv5 "ciphertext" (Fld.bytes [])) wKey true).1
        = Except.error (Err.fileDecryption d)) ∧
      Ev.write ∉ (decryptFile (replaceField wEnv5 "ciphertext" (Fld.bytes [])) wKey true).2) :=
  ⟨⟨by decide, by decide, by decide⟩,
    spec_C7 "A" wKey wNonce (by decide) [] (by decide) wEnv5 (by decide)⟩

/-- C8: for every salt whose length is not 16 bytes, `derive_key` fails
with `InvalidSalt`; the outcome is the same for every password, showing no
password-dependent derivation work is performed. -/
theorem spec_C8 (pw pw' : String) (salt : List Nat) (hs : salt.length ≠ 16) :
    (∃ d, derive_key pw salt = Except.error (Err.invalidSalt d)) ∧
    derive_key pw salt = derive_key pw' salt := by
  refine ⟨⟨"Expected salt of size " ++ Nat.repr SALT_SIZE ++ ", got " ++
    Nat.repr salt.length ++ " bytes.", ?_⟩, ?_⟩ <;> simp [derive_key, SALT_SIZE, hs]

/-- C8 witness: the `InvalidSalt` failure at a 1-byte salt. -/
theorem spec_C8_witness :
    ([0] : List Nat).length ≠ 16 ∧
    ((∃ d, derive_key "p" [0] = Except.error (Err.invalidSalt d)) ∧
      derive_key "p" [0] = derive_key "q" [0]) :=
  ⟨by decide, spec_C8 "p" "q" [0] (by decide)⟩

/-- C9: tamper with exactly one of the `ciphertext`, `nonce` or `tag`
fields of an envelope produced by `encrypt`, and `decrypt` under the same
key fails with a `Decryption` error (AEAD authentication failure); it
never returns a plaintext. -/
theorem spec_C9 (data : String) (key nonce : List Nat) (hk : key.length = 32)
    (ct0 tg : List Nat)
    (hE : encrypt data key nonce = Except.ok [("ciphertext", Fld.bytes ct0),
      ("nonce", Fld.bytes nonce), ("tag", Fld.bytes tg)])
    (ct' n' t' : List Nat)
    (htam : (ct' ≠ ct0 ∧ n' = nonce ∧ t' = tg) ∨ (ct' = ct0 ∧ n' ≠ nonce ∧ t' = tg) ∨
      (ct' = ct0 ∧ n' = nonce ∧ t' ≠ tg)) :
    ∃ d, decrypt [("ciphertext", Fld.bytes ct'), ("nonce", Fld.bytes n'),
      ("tag", Fld.bytes t')] key true = Except.error (Err.decryption d) := by
  have hko := keyOk_of_len32 hk
  simp only [encrypt, hko, if_true, Except.ok.injEq, List.cons.injEq, Prod.mk.injEq,
    Fld.bytes.injEq, and_true, true_and] at hE
  have hct0 : ct0 = (encGCM key nonce (strEncode data)).1 := hE.1.symm
  have htg : tg = tagOf key nonce ct0 := by
    rw [hct0]
    exact hE.2.symm
  have hcond : t' ≠ tagOf key n' ct' := by
    rcases htam with ⟨hc, rfl, rfl⟩ | ⟨rfl, hn, rfl⟩ | ⟨rfl, rfl, ht⟩
    · rw [htg]
      intro h
      exact hc ((tagOf_inj h).2).symm
    · rw [htg]
      intro h
      exact hn ((tagOf_inj h).1).symm
    · rw [htg] at ht
      exact ht
  refine ⟨"InvalidTag", ?_⟩
  simp [decrypt, dget?_cons, dget?_nil, hko, decGCM, hcond]

/-- C9 witness: tampering with the tag of the concrete envelope `wEnv3`
by prepending a byte. -/
theorem spec_C9_witness :
    (wKey.length = 32 ∧
      encrypt "A" wKey wNonce = Except.ok [("ciphertext",
        Fld.bytes (encGCM wKey wNonce (strEncode "A")).1), ("nonce", Fld.bytes wNonce),
        ("tag", Fld.bytes (encGCM wKey wNonce (strEncode "A")).2)] ∧
      0 :: (encGCM wKey wNonce (strEncode "A")).2 ≠ (encGCM wKey wNonce (strEncode "A")).2) ∧
    ∃ d, decrypt [("ciphertext", Fld.bytes (encGCM wKey wNonce (strEncode "A")).1),
      ("nonce", Fld.bytes wNonce),
      ("tag", Fld.bytes (0 :: (encGCM wKey wNonce (strEncode "A")).2))] wKey true =
      Except.error (Err.decryption d) :=
  ⟨⟨by decide, by decide, by decide⟩,
    spec_C9 "A" wKey wNonce (by decide) (encGCM wKey wNonce (strEncode "A")).1
      (encGCM wKey wNonce (strEncode "A")).2 (by decide)
      (encGCM wKey wNonce (strEncode "A")).1 wNonce
      (0 :: (encGCM wKey wNonce (strEncode "A")).2)
      (Or.inr (Or.inr ⟨rfl, rfl, by decide⟩))⟩

/-- C10: `file_sha` presence is tested by truthiness, `sha` by key
membership — append an empty-string `sha` and an empty-string `file_sha`
to a valid envelope: `decrypt_file` skips the envelope-level check with
the missing-`file_sha` warning (trace `[warnFileSha, aead]`, and the
error is not the envelope-integrity one), while the empty-string `sha`
still triggers the plaintext-hash comparison, which fails with the
wrapped plaintext-integrity message. -/
theorem spec_C10 (data : String) (key nonce : List Nat) (hk : key.length = 32)
    (ed : List (String × Fld)) (hE : encrypt data key nonce = Except.ok ed) :
    decryptFile (ed ++ [("sha", Fld.str ""), ("file_sha", Fld.str "")]) key true
      = (Except.error (Err.fileDecryption integrityMsg), [Ev.warnFileSha, Ev.aead]) := by
  have hko := keyOk_of_len32 hk
  simp only [encrypt, hko, if_true, Except.ok.injEq] at hE
  subst hE
  have hne := Ne.symm (compute_sha256_ne_empty data)
  simp [decryptFile, decryptFileRest, decrypt, errDetails, dget?_cons, dget?_nil,
    dcontains_cons, dcontains_nil, otruthy, ftruthy, hko, decGCM_encGCM,
    strDecode_strEncode, hne]

/-- C10 witness: the asymmetry at the concrete envelope `wEnv3` with
empty-string hash fields appended. -/
theorem spec_C10_witness :
    (wKey.length = 32 ∧ encrypt "A" wKey wNonce = Except.ok wEnv3) ∧
    decryptFile (wEnv3 ++ [("sha", Fld.str ""), ("file_sha", Fld.str "")]) wKey true
      = (Except.error (Err.fileDecryption integrityMsg), [Ev.warnFileSha, Ev.aead]) :=
  ⟨⟨by decide, by decide⟩, spec_C10 "A" wKey wNonce (by decide) wEnv3 (by decide)⟩

end Envcloak
